import Mathlib

/-!
Verification of the ImageFlowKit batch image-processing utilities.

The development shallowly embeds the Python sources:
  * `image_rotation_corrector.py` — template-based orientation correction
    (rotation candidates, SSIM-based decision policy, batch orchestration);
  * `split_images.py` — three-way slicing of an image along one axis;
  * `crop_white_edges.py` — cropping of white borders.

Raster images are modelled as rectangular grids of pixels (`Fin h → Fin w → α`).
The external similarity metric (`skimage.metrics.structural_similarity`
composed with the resize/grayscale preprocessing of `calculate_similarity`) is
kept abstract as a function parameter `sim`: the claims under verification only
depend on how its scores are consumed, never on its internals.  Mirrored
indices such as `h - 1 - r` are written with `Fin.rev` (`r.rev.val = h - 1 - r.val`).
-/

/-- A raster image: `h` rows and `w` columns of pixels of type `α`. -/
structure Img (α : Type) where
  h : Nat
  w : Nat
  pix : Fin h → Fin w → α

/-- Two images with the same dimensions and the same pixels are equal. -/
theorem Img.ext_mk {α : Type} {h w : Nat} (p q : Fin h → Fin w → α)
    (hpq : ∀ (r : Fin h) (c : Fin w), p r c = q r c) :
    Img.mk h w p = Img.mk h w q := by
  congr 1
  funext r c
  exact hpq r c

/-- `cv2.rotate(·, cv2.ROTATE_90_CLOCKWISE)`: output pixel `(r, c)` comes from
input pixel `(h - 1 - c, r)`; dimensions swap. -/
def rotCW90 {α : Type} (m : Img α) : Img α :=
  ⟨m.w, m.h, fun r c => m.pix c.rev r⟩

/-- `cv2.rotate(·, cv2.ROTATE_180)`: output pixel `(r, c)` comes from input
pixel `(h - 1 - r, w - 1 - c)`; dimensions unchanged. -/
def rot180 {α : Type} (m : Img α) : Img α :=
  ⟨m.h, m.w, fun r c => m.pix r.rev c.rev⟩

/-- `cv2.rotate(·, cv2.ROTATE_90_COUNTERCLOCKWISE)`: output pixel `(r, c)`
comes from input pixel `(c, w - 1 - r)`; dimensions swap. -/
def rotCCW90 {α : Type} (m : Img α) : Img α :=
  ⟨m.w, m.h, fun r c => m.pix c r.rev⟩

/-- The rotation branch of the scoring loop in `find_correct_rotation`
(`image_rotation_corrector.py`, lines 104-113): `0` keeps the image, `90` and
`180` are clockwise rotations, the remaining branch (`270`) rotates
counterclockwise by 90. -/
def rotateBy {α : Type} (angle : Nat) (m : Img α) : Img α :=
  if angle = 0 then m
  else if angle = 90 then rotCW90 m
  else if angle = 180 then rot180 m
  else rotCCW90 m

/-- The four rotation candidates generated by the loop
`for angle in [0, 90, 180, 270]` in `find_correct_rotation`, in that order. -/
def rotation_candidates {α : Type} (m : Img α) : List (Nat × Img α) :=
  [0, 90, 180, 270].map (fun a => (a, rotateBy a m))

/-- `SIMILARITY_THRESHOLD = 0.015` (`image_rotation_corrector.py`, line 19). -/
def SIMILARITY_THRESHOLD : ℚ := 15 / 1000

/-- Python's `sorted(values, reverse=True)` on the similarity score values. -/
def sortDesc (l : List ℚ) : List ℚ :=
  l.insertionSort (fun a b => a ≥ b)

/-- The running-best accumulation of the scoring loop
(`image_rotation_corrector.py`, lines 100-121): start from angle `0` and
similarity `0`, replace the pair whenever a strictly larger score appears. -/
def best_pair (scores : List (Nat × ℚ)) : Nat × ℚ :=
  scores.foldl (fun b p => if p.2 > b.2 then p else b) (0, 0)

/-- `sorted_similarities[1] if len(sorted_similarities) > 1 else 0`
(`image_rotation_corrector.py`, lines 124-127): the second entry of the list of
score values sorted in descending order, counting multiplicity. -/
def second_best_similarity (scores : List (Nat × ℚ)) : ℚ :=
  ((sortDesc (scores.map Prod.snd)).get? 1).getD 0

/-- The `similarity_scores` map built by the scoring loop of
`find_correct_rotation` (`image_rotation_corrector.py`, lines 104-117):
one entry per rotation candidate, in generation order. -/
def similarity_scores_of (sim : Img ℚ → Img ℚ → ℚ) (reference_img : Img ℚ)
    (test_img : Img ℚ) : List (Nat × ℚ) :=
  (rotation_candidates test_img).map (fun p => (p.1, sim reference_img p.2))

/-- `find_correct_rotation(image_path, reference_img)`
(`image_rotation_corrector.py`, lines 81-133).  `load` is the result of
`imread_chinese(image_path)` (`none` when that call raises, making the
`except` branch return `0, 0, {}, False`); `sim` stands for
`calculate_similarity(reference_img, rotated)`.  Returns
`(best_angle, best_similarity, similarity_scores, needs_manual_check)`. -/
def find_correct_rotation (sim : Img ℚ → Img ℚ → ℚ) (reference_img : Img ℚ)
    (load : Option (Img ℚ)) : Nat × ℚ × List (Nat × ℚ) × Bool :=
  match load with
  | none => (0, 0, [], false)
  | some test_img =>
    let similarity_scores := similarity_scores_of sim reference_img test_img
    let bp := best_pair similarity_scores
    let second := second_best_similarity similarity_scores
    (bp.1, bp.2, similarity_scores, decide (bp.2 - second < SIMILARITY_THRESHOLD))

/-- `PIL.Image.rotate(deg, expand=True)` restricted to the right angles the
batch code uses: one counterclockwise quarter turn per 90 degrees, with the
canvas expanded to the exact rotated extent (no clipping). -/
def pil_rotate {α : Type} (deg : Nat) (m : Img α) : Img α :=
  (rotCCW90)^[deg / 90] m

/-- The image written by `batch_correct_with_template`
(`image_rotation_corrector.py`, lines 209-216): for a non-zero best angle the
loaded image rotated by `img.rotate(360 - angle, expand=True)`, otherwise the
image unchanged. -/
def savedImage {α : Type} (angle : Nat) (m : Img α) : Img α :=
  if angle = 0 then m else pil_rotate (360 - angle) m

theorem rotCCW90_rotCCW90 {α : Type} (m : Img α) :
    rotCCW90 (rotCCW90 m) = rot180 m := rfl

theorem rotCCW90_rot180 {α : Type} (m : Img α) :
    rotCCW90 (rot180 m) = rotCW90 m := by
  obtain ⟨h, w, p⟩ := m
  refine Img.ext_mk _ _ (fun r c => ?_)
  simp only [rotCCW90, rot180, rotCW90, Fin.rev_rev]

theorem rotCCW90_rotCW90 {α : Type} (m : Img α) :
    rotCCW90 (rotCW90 m) = m := by
  obtain ⟨h, w, p⟩ := m
  refine Img.ext_mk _ _ (fun r c => ?_)
  simp only [rotCCW90, rotCW90, Fin.rev_rev]

theorem rotCW90_rotCW90 {α : Type} (m : Img α) :
    rotCW90 (rotCW90 m) = rot180 m := rfl

theorem rotCW90_three {α : Type} (m : Img α) :
    rotCW90 (rotCW90 (rotCW90 m)) = rotCCW90 m := by
  obtain ⟨h, w, p⟩ := m
  refine Img.ext_mk _ _ (fun r c => ?_)
  simp only [rotCW90, rotCCW90, Fin.rev_rev]

theorem rotCCW90_three {α : Type} (m : Img α) :
    rotCCW90 (rotCCW90 (rotCCW90 m)) = rotCW90 m := by
  obtain ⟨h, w, p⟩ := m
  refine Img.ext_mk _ _ (fun r c => ?_)
  simp only [rotCCW90, rotCW90, Fin.rev_rev]

theorem sortDesc_perm (l : List ℚ) : List.Perm (sortDesc l) l :=
  List.perm_insertionSort _ l

theorem sortDesc_sorted (l : List ℚ) : (sortDesc l).Sorted (fun a b => a ≥ b) :=
  List.sorted_insertionSort _ l

/-- The first two entries of a descending-sorted permutation of `l`: the head
is a maximum of `l`, and the second entry is a maximum of `l` with one
occurrence of the head removed. -/
theorem sorted_head_two {l : List ℚ} {a b : ℚ} {t : List ℚ}
    (hp : List.Perm (a :: b :: t) l)
    (hs : List.Sorted (fun x y => x ≥ y) (a :: b :: t)) :
    (a ∈ l ∧ ∀ v ∈ l, v ≤ a) ∧
    (b ∈ l.erase a ∧ ∀ v ∈ l.erase a, v ≤ b) := by
  have ha : a ∈ l := hp.subset (List.mem_cons_self a _)
  have hub : ∀ v ∈ l, v ≤ a := by
    intro v hv
    have hv2 : v ∈ a :: b :: t := (hp.mem_iff).2 hv
    rcases List.mem_cons.1 hv2 with rfl | hv3
    · exact le_refl v
    · exact List.rel_of_sorted_cons hs v hv3
  have hperase : List.Perm (b :: t) (l.erase a) := by
    have h1 : List.Perm ((a :: b :: t).erase a) (l.erase a) := hp.erase a
    rwa [List.erase_cons_head] at h1
  have hb : b ∈ l.erase a := hperase.subset (List.mem_cons_self b _)
  refine ⟨⟨ha, hub⟩, hb, ?_⟩
  intro v hv
  have hv2 : v ∈ b :: t := (hperase.mem_iff).2 hv
  rcases List.mem_cons.1 hv2 with rfl | hv3
  · exact le_refl v
  · exact List.rel_of_sorted_cons hs.of_cons v hv3

/-- Sorting a four-element score list yields at least two entries. -/
theorem four_sorted (x0 x90 x180 x270 : ℚ) :
    ∃ a b t, sortDesc [x0, x90, x180, x270] = a :: b :: t := by
  have hlen : (sortDesc [x0, x90, x180, x270]).length = 4 :=
    (sortDesc_perm _).length_eq
  match hm : sortDesc [x0, x90, x180, x270] with
  | [] => rw [hm] at hlen; simp at hlen
  | [a] => rw [hm] at hlen; simp at hlen
  | a :: b :: t => exact ⟨a, b, t, rfl⟩

/-- The running-best fold of the scoring loop, on the four scores of one
candidate image, all nonnegative: it returns a maximal score, and the earliest
entry of the map attaining it. -/
theorem best_pair_spec (x0 x90 x180 x270 : ℚ)
    (h0 : 0 ≤ x0) (h90 : 0 ≤ x90) (h180 : 0 ≤ x180) (h270 : 0 ≤ x270) :
    (best_pair [(0, x0), (90, x90), (180, x180), (270, x270)]).2 ∈ [x0, x90, x180, x270] ∧
    (∀ v ∈ [x0, x90, x180, x270], v ≤ (best_pair [(0, x0), (90, x90), (180, x180), (270, x270)]).2) ∧
    [(0, x0), (90, x90), (180, x180), (270, x270)].find?
        (fun p => decide (p.2 = (best_pair [(0, x0), (90, x90), (180, x180), (270, x270)]).2)) =
      some (best_pair [(0, x0), (90, x90), (180, x180), (270, x270)]) := by
  have e1 : best_pair [(0, x0), (90, x90), (180, x180), (270, x270)] =
      [(90, x90), (180, x180), (270, x270)].foldl (fun b p => if p.2 > b.2 then p else b) ((0 : Nat), x0) := by
    simp only [best_pair, List.foldl_cons]
    rcases eq_or_lt_of_le h0 with h | h
    · have hng : ¬ (x0 > (0 : ℚ)) := by rw [← h]; exact lt_irrefl 0
      rw [if_neg hng, ← h]
    · rw [if_pos h]
  by_cases c1 : x90 > x0
  · by_cases c2 : x180 > x90
    · by_cases c3 : x270 > x180
      · have e2 : [((90 : Nat), x90), (180, x180), (270, x270)].foldl
            (fun b p => if p.2 > b.2 then p else b) ((0 : Nat), x0) = (270, x270) := by
          simp only [List.foldl_cons, List.foldl_nil]
          simp [c1, c2, c3]
        rw [e1, e2]
        have n0 : ¬ (x0 = x270) := by intro he; rw [he] at c1; linarith
        have n90 : ¬ (x90 = x270) := by intro he; rw [he] at c2; linarith
        have n180 : ¬ (x180 = x270) := by intro he; rw [he] at c3; linarith
        refine ⟨by simp, ?_, by simp [List.find?, n0, n90, n180]⟩
        intro v hv
        simp only [List.mem_cons, List.not_mem_nil, or_false] at hv
        rcases hv with rfl | rfl | rfl | rfl <;> simp <;> linarith
      · have e2 : [((90 : Nat), x90), (180, x180), (270, x270)].foldl
            (fun b p => if p.2 > b.2 then p else b) ((0 : Nat), x0) = (180, x180) := by
          simp only [List.foldl_cons, List.foldl_nil]
          simp [c1, c2, c3]
        rw [e1, e2]
        push_neg at c3
        have n0 : ¬ (x0 = x180) := by intro he; rw [he] at c1; linarith
        have n90 : ¬ (x90 = x180) := by intro he; rw [he] at c2; linarith
        refine ⟨by simp, ?_, by simp [List.find?, n0, n90]⟩
        intro v hv
        simp only [List.mem_cons, List.not_mem_nil, or_false] at hv
        rcases hv with rfl | rfl | rfl | rfl <;> simp <;> linarith
    · by_cases c3 : x270 > x90
      · have e2 : [((90 : Nat), x90), (180, x180), (270, x270)].foldl
            (fun b p => if p.2 > b.2 then p else b) ((0 : Nat), x0) = (270, x270) := by
          simp only [List.foldl_cons, List.foldl_nil]
          simp [c1, c2, c3]
        rw [e1, e2]
        push_neg at c2
        have n0 : ¬ (x0 = x270) := by intro he; linarith
        have n90 : ¬ (x90 = x270) := by intro he; linarith
        have n180 : ¬ (x180 = x270) := by intro he; linarith
        refine ⟨by simp, ?_, by simp [List.find?, n0, n90, n180]⟩
        intro v hv
        simp only [List.mem_cons, List.not_mem_nil, or_false] at hv
        rcases hv with rfl | rfl | rfl | rfl <;> simp <;> linarith
      · have e2 : [((90 : Nat), x90), (180, x180), (270, x270)].foldl
            (fun b p => if p.2 > b.2 then p else b) ((0 : Nat), x0) = (90, x90) := by
          simp only [List.foldl_cons, List.foldl_nil]
          simp [c1, c2, c3]
        rw [e1, e2]
        push_neg at c2 c3
        have n0 : ¬ (x0 = x90) := by intro he; linarith
        refine ⟨by simp, ?_, by simp [List.find?, n0]⟩
        intro v hv
        simp only [List.mem_cons, List.not_mem_nil, or_false] at hv
        rcases hv with rfl | rfl | rfl | rfl <;> simp <;> linarith
  · by_cases c2 : x180 > x0
    · by_cases c3 : x270 > x180
      · have e2 : [((90 : Nat), x90), (180, x180), (270, x270)].foldl
            (fun b p => if p.2 > b.2 then p else b) ((0 : Nat), x0) = (270, x270) := by
          simp only [List.foldl_cons, List.foldl_nil]
          simp [c1, c2, c3]
        rw [e1, e2]
        push_neg at c1
        have n0 : ¬ (x0 = x270) := by intro he; linarith
        have n90 : ¬ (x90 = x270) := by intro he; linarith
        have n180 : ¬ (x180 = x270) := by intro he; linarith
        refine ⟨by simp, ?_, by simp [List.find?, n0, n90, n180]⟩
        intro v hv
        simp only [List.mem_cons, List.not_mem_nil, or_false] at hv
        rcases hv with rfl | rfl | rfl | rfl <;> simp <;> linarith
      · have e2 : [((90 : Nat), x90), (180, x180), (270, x270)].foldl
            (fun b p => if p.2 > b.2 then p else b) ((0 : Nat), x0) = (180, x180) := by
          simp only [List.foldl_cons, List.foldl_nil]
          simp [c1, c2, c3]
        rw [e1, e2]
        push_neg at c1 c3
        have n0 : ¬ (x0 = x180) := by intro he; linarith
        have n90 : ¬ (x90 = x180) := by intro he; linarith
        refine ⟨by simp, ?_, by simp [List.find?, n0, n90]⟩
        intro v hv
        simp only [List.mem_cons, List.not_mem_nil, or_false] at hv
        rcases hv with rfl | rfl | rfl | rfl <;> simp <;> linarith
    · by_cases c3 : x270 > x0
      · have e2 : [((90 : Nat), x90), (180, x180), (270, x270)].foldl
            (fun b p => if p.2 > b.2 then p else b) ((0 : Nat), x0) = (270, x270) := by
          simp only [List.foldl_cons, List.foldl_nil]
          simp [c1, c2, c3]
        rw [e1, e2]
        push_neg at c1 c2
        have n0 : ¬ (x0 = x270) := by intro he; linarith
        have n90 : ¬ (x90 = x270) := by intro he; linarith
        have n180 : ¬ (x180 = x270) := by intro he; linarith
        refine ⟨by simp, ?_, by simp [List.find?, n0, n90, n180]⟩
        intro v hv
        simp only [List.mem_cons, List.not_mem_nil, or_false] at hv
        rcases hv with rfl | rfl | rfl | rfl <;> simp <;> linarith
      · have e2 : [((90 : Nat), x90), (180, x180), (270, x270)].foldl
            (fun b p => if p.2 > b.2 then p else b) ((0 : Nat), x0) = (0, x0) := by
          simp only [List.foldl_cons, List.foldl_nil]
          simp [c1, c2, c3]
        rw [e1, e2]
        push_neg at c1 c2 c3
        refine ⟨by simp, ?_, by simp [List.find?]⟩
        intro v hv
        simp only [List.mem_cons, List.not_mem_nil, or_false] at hv
        rcases hv with rfl | rfl | rfl | rfl <;> simp <;> linarith

theorem find_snd (sim : Img ℚ → Img ℚ → ℚ) (reference_img test_img : Img ℚ) :
    (find_correct_rotation sim reference_img (some test_img)).2.1 =
      (best_pair (similarity_scores_of sim reference_img test_img)).2 := rfl

theorem find_fst (sim : Img ℚ → Img ℚ → ℚ) (reference_img test_img : Img ℚ) :
    (find_correct_rotation sim reference_img (some test_img)).1 =
      (best_pair (similarity_scores_of sim reference_img test_img)).1 := rfl

theorem find_scores (sim : Img ℚ → Img ℚ → ℚ) (reference_img test_img : Img ℚ) :
    (find_correct_rotation sim reference_img (some test_img)).2.2.1 =
      similarity_scores_of sim reference_img test_img := rfl

theorem find_flag (sim : Img ℚ → Img ℚ → ℚ) (reference_img test_img : Img ℚ) :
    (find_correct_rotation sim reference_img (some test_img)).2.2.2 =
      decide ((best_pair (similarity_scores_of sim reference_img test_img)).2 -
        second_best_similarity (similarity_scores_of sim reference_img test_img) <
          SIMILARITY_THRESHOLD) := rfl

theorem scores_eq (sim : Img ℚ → Img ℚ → ℚ) (reference_img test_img : Img ℚ) :
    similarity_scores_of sim reference_img test_img =
      [(0, sim reference_img test_img),
       (90, sim reference_img (rotCW90 test_img)),
       (180, sim reference_img (rot180 test_img)),
       (270, sim reference_img (rotCCW90 test_img))] := rfl

/-- C1: for a candidate image whose load succeeds, the decision record is
consistent with its angle-to-score map: the recorded best score is a member of
the score map and an upper bound of all its values (i.e. its maximum), and the
earliest entry of the map, in generation order 0, 90, 180, 270, whose score
attains that maximum is exactly the recorded (best angle, best score) pair.
The scores are required to be nonnegative, as guaranteed by the similarity
scorer contract (scores lie in `[0, 1]`). -/
theorem c1_decision_record_consistent (sim : Img ℚ → Img ℚ → ℚ)
    (reference_img test_img : Img ℚ)
    (hnn : ∀ p ∈ similarity_scores_of sim reference_img test_img, 0 ≤ p.2) :
    (find_correct_rotation sim reference_img (some test_img)).2.1
        ∈ (similarity_scores_of sim reference_img test_img).map Prod.snd ∧
    (∀ v ∈ (similarity_scores_of sim reference_img test_img).map Prod.snd,
        v ≤ (find_correct_rotation sim reference_img (some test_img)).2.1) ∧
    (similarity_scores_of sim reference_img test_img).find?
        (fun p => decide (p.2 = (find_correct_rotation sim reference_img (some test_img)).2.1)) =
      some ((find_correct_rotation sim reference_img (some test_img)).1,
            (find_correct_rotation sim reference_img (some test_img)).2.1) := by
  have h0 : 0 ≤ sim reference_img test_img :=
    hnn (0, sim reference_img test_img) (by rw [scores_eq]; simp)
  have h90 : 0 ≤ sim reference_img (rotCW90 test_img) :=
    hnn (90, sim reference_img (rotCW90 test_img)) (by rw [scores_eq]; simp)
  have h180 : 0 ≤ sim reference_img (rot180 test_img) :=
    hnn (180, sim reference_img (rot180 test_img)) (by rw [scores_eq]; simp)
  have h270 : 0 ≤ sim reference_img (rotCCW90 test_img) :=
    hnn (270, sim reference_img (rotCCW90 test_img)) (by rw [scores_eq]; simp)
  obtain ⟨m1, m2, m3⟩ := best_pair_spec (sim reference_img test_img)
    (sim reference_img (rotCW90 test_img)) (sim reference_img (rot180 test_img))
    (sim reference_img (rotCCW90 test_img)) h0 h90 h180 h270
  rw [find_snd, find_fst, scores_eq]
  simp only [List.map_cons, List.map_nil]
  exact ⟨m1, m2, m3⟩

/-- Modelled from the spec: "Second-best score = the second-highest distinct
score in the map (0 if only one entry exists)" — the second entry of the
descending sort of the score values after removing duplicate values.  Used
only to compare the claimed policy against the source's
`second_best_similarity`. -/
def second_highest_distinct (values : List ℚ) : ℚ :=
  (((sortDesc values).dedup).get? 1).getD 0

/-- A similarity stub used for concrete evaluations: reads the top-left pixel
of the rotated candidate, so each rotation of a 2-by-2 image reports a chosen
score. -/
def simTL : Img ℚ → Img ℚ → ℚ := fun _ b =>
  if h1 : 0 < b.h then if h2 : 0 < b.w then b.pix ⟨0, h1⟩ ⟨0, h2⟩ else 0 else 0

/-- A concrete 2-by-2 image with pixels `a b / c d` (row major). -/
def img2x2 (a b c d : ℚ) : Img ℚ :=
  ⟨2, 2, fun r cc =>
    if r.val = 0 then (if cc.val = 0 then a else b)
    else (if cc.val = 0 then c else d)⟩

/-- A concrete reference image (its content is irrelevant to `simTL`). -/
def refImg : Img ℚ := ⟨1, 1, fun _ _ => 1⟩

/-- C2, counterexample: on the score map
`{0: 9/10, 90: 9/10, 180: 1/2, 270: 2/5}` the source's second-best score is
`9/10` (the second entry of the sorted value list, counting multiplicity),
not the second-highest distinct score `1/2`; the margin the code uses is
`0 < 0.015` so the image is flagged, while the claimed margin
`9/10 - 1/2 = 2/5 ≥ 0.015` would not flag it. -/
theorem c2_counterexample :
    second_best_similarity
        (similarity_scores_of simTL refImg (img2x2 (9/10) (2/5) (9/10) (1/2))) = 9/10 ∧
    second_highest_distinct
        ((similarity_scores_of simTL refImg (img2x2 (9/10) (2/5) (9/10) (1/2))).map Prod.snd) = 1/2 ∧
    (find_correct_rotation simTL refImg (some (img2x2 (9/10) (2/5) (9/10) (1/2)))).2.2.2 = true ∧
    ¬ ((find_correct_rotation simTL refImg (some (img2x2 (9/10) (2/5) (9/10) (1/2)))).2.1 -
        second_highest_distinct
          ((similarity_scores_of simTL refImg (img2x2 (9/10) (2/5) (9/10) (1/2))).map Prod.snd) <
        SIMILARITY_THRESHOLD) := by
  have hscores : similarity_scores_of simTL refImg (img2x2 (9/10) (2/5) (9/10) (1/2)) =
      [(0, 9/10), (90, 9/10), (180, 1/2), (270, 2/5)] := rfl
  refine ⟨?_, ?_, ?_, ?_⟩
  · rw [hscores]
    norm_num [second_best_similarity, sortDesc, List.insertionSort, List.orderedInsert]
  · rw [hscores]
    norm_num [second_highest_distinct, sortDesc, List.insertionSort, List.orderedInsert,
      List.dedup, List.pwFilter]
  · rw [find_flag, hscores]
    norm_num [best_pair, second_best_similarity, sortDesc, List.insertionSort,
      List.orderedInsert, SIMILARITY_THRESHOLD]
  · rw [find_snd, hscores]
    norm_num [best_pair, second_highest_distinct, sortDesc, List.insertionSort,
      List.orderedInsert, List.dedup, List.pwFilter, SIMILARITY_THRESHOLD]

/-- C2 as amended: the second-best score used in the margin is the largest
score remaining after removing one occurrence of the best score — the second
entry of the descending sort of the values counting multiplicity, so a tie for
the best makes the second-best equal the best — and the manual-review flag is
computed from margin = best − that value. -/
theorem c2_second_best_counts_multiplicity (sim : Img ℚ → Img ℚ → ℚ)
    (reference_img test_img : Img ℚ)
    (hnn : ∀ p ∈ similarity_scores_of sim reference_img test_img, 0 ≤ p.2) :
    second_best_similarity (similarity_scores_of sim reference_img test_img)
        ∈ ((similarity_scores_of sim reference_img test_img).map Prod.snd).erase
            (find_correct_rotation sim reference_img (some test_img)).2.1 ∧
    (∀ v ∈ ((similarity_scores_of sim reference_img test_img).map Prod.snd).erase
            (find_correct_rotation sim reference_img (some test_img)).2.1,
        v ≤ second_best_similarity (similarity_scores_of sim reference_img test_img)) ∧
    (find_correct_rotation sim reference_img (some test_img)).2.2.2 =
      decide ((find_correct_rotation sim reference_img (some test_img)).2.1 -
        second_best_similarity (similarity_scores_of sim reference_img test_img) <
          SIMILARITY_THRESHOLD) := by
  have h0 : 0 ≤ sim reference_img test_img :=
    hnn (0, sim reference_img test_img) (by rw [scores_eq]; simp)
  have h90 : 0 ≤ sim reference_img (rotCW90 test_img) :=
    hnn (90, sim reference_img (rotCW90 test_img)) (by rw [scores_eq]; simp)
  have h180 : 0 ≤ sim reference_img (rot180 test_img) :=
    hnn (180, sim reference_img (rot180 test_img)) (by rw [scores_eq]; simp)
  have h270 : 0 ≤ sim reference_img (rotCCW90 test_img) :=
    hnn (270, sim reference_img (rotCCW90 test_img)) (by rw [scores_eq]; simp)
  obtain ⟨bmem, bub, _⟩ := best_pair_spec (sim reference_img test_img)
    (sim reference_img (rotCW90 test_img)) (sim reference_img (rot180 test_img))
    (sim reference_img (rotCCW90 test_img)) h0 h90 h180 h270
  obtain ⟨a, b, t, hsort⟩ := four_sorted (sim reference_img test_img)
    (sim reference_img (rotCW90 test_img)) (sim reference_img (rot180 test_img))
    (sim reference_img (rotCCW90 test_img))
  have hperm := sortDesc_perm [sim reference_img test_img,
    sim reference_img (rotCW90 test_img), sim reference_img (rot180 test_img),
    sim reference_img (rotCCW90 test_img)]
  have hsorted := sortDesc_sorted [sim reference_img test_img,
    sim reference_img (rotCW90 test_img), sim reference_img (rot180 test_img),
    sim reference_img (rotCCW90 test_img)]
  rw [hsort] at hperm hsorted
  obtain ⟨⟨hamem, haub⟩, hbmem, hbub⟩ := sorted_head_two hperm hsorted
  have hvals : (similarity_scores_of sim reference_img test_img).map Prod.snd =
      [sim reference_img test_img, sim reference_img (rotCW90 test_img),
       sim reference_img (rot180 test_img), sim reference_img (rotCCW90 test_img)] := by
    rw [scores_eq]
    rfl
  have habp : a = (best_pair (similarity_scores_of sim reference_img test_img)).2 := by
    have hb1 : (best_pair (similarity_scores_of sim reference_img test_img)).2
        ∈ [sim reference_img test_img, sim reference_img (rotCW90 test_img),
           sim reference_img (rot180 test_img), sim reference_img (rotCCW90 test_img)] := by
      rw [scores_eq]; exact bmem
    have hb2 : ∀ v ∈ [sim reference_img test_img, sim reference_img (rotCW90 test_img),
        sim reference_img (rot180 test_img), sim reference_img (rotCCW90 test_img)],
        v ≤ (best_pair (similarity_scores_of sim reference_img test_img)).2 := by
      rw [scores_eq]; exact bub
    exact le_antisymm (hb2 a hamem) (haub _ hb1)
  have hsb : second_best_similarity (similarity_scores_of sim reference_img test_img) = b := by
    unfold second_best_similarity
    rw [hvals, hsort]
    rfl
  rw [find_snd, find_flag, hsb, hvals, ← habp]
  refine ⟨hbmem, hbub, rfl⟩

/-- C3: for a loaded candidate image, `needs_manual_check` is true exactly when
the margin (best score minus the second-best score the code computes) is
strictly below `SIMILARITY_THRESHOLD = 0.015`; in particular a margin exactly
equal to the threshold is not flagged. -/
theorem c3_manual_review_iff_margin_below (sim : Img ℚ → Img ℚ → ℚ)
    (reference_img test_img : Img ℚ) :
    ((find_correct_rotation sim reference_img (some test_img)).2.2.2 = true ↔
      (find_correct_rotation sim reference_img (some test_img)).2.1 -
        second_best_similarity (similarity_scores_of sim reference_img test_img) <
          SIMILARITY_THRESHOLD) ∧
    ((find_correct_rotation sim reference_img (some test_img)).2.1 -
        second_best_similarity (similarity_scores_of sim reference_img test_img) =
          SIMILARITY_THRESHOLD →
      (find_correct_rotation sim reference_img (some test_img)).2.2.2 = false) := by
  constructor
  · rw [find_flag, find_snd]
    exact decide_eq_true_iff
  · intro hm
    rw [find_snd] at hm
    rw [find_flag, hm]
    simp

/-- C5: the rotation written to disk coincides with the rotation candidate that
scored best: for each nonzero best angle `a`, the saved image
`img.rotate(360 - a, expand=True)` equals the clockwise rotation by `a` used
during scoring. -/
theorem c5_saved_image_is_chosen_candidate {α : Type} (m : Img α) :
    savedImage 90 m = rotateBy 90 m ∧
    savedImage 180 m = rotateBy 180 m ∧
    savedImage 270 m = rotateBy 270 m := by
  refine ⟨?_, ?_, rfl⟩
  · have h1 : savedImage 90 m = rotCCW90 (rotCCW90 (rotCCW90 m)) := rfl
    rw [h1, rotCCW90_three]
    rfl
  · have h1 : savedImage 180 m = rotCCW90 (rotCCW90 m) := rfl
    rw [h1, rotCCW90_rotCCW90]
    rfl

/-- C6: the candidate generator yields exactly 4 pairs at angles
0, 90, 180, 270 in that order with no duplicates; the 0-degree candidate is
the unchanged image, the others are pure clockwise rotations (90 one quarter
turn, 180 two, 270 three), dimensions swap for 90 and 270 and stay for 180,
and the quarter turn is inverted by a counterclockwise quarter turn (no
cropping, no loss). -/
theorem c6_rotation_candidates_spec {α : Type} (m : Img α) :
    (rotation_candidates m).length = 4 ∧
    (rotation_candidates m).map Prod.fst = [0, 90, 180, 270] ∧
    ((rotation_candidates m).map Prod.fst).Nodup ∧
    (rotation_candidates m).get? 0 = some (0, m) ∧
    (rotation_candidates m).get? 1 = some (90, rotCW90 m) ∧
    (rotation_candidates m).get? 2 = some (180, rotCW90 (rotCW90 m)) ∧
    (rotation_candidates m).get? 3 = some (270, rotCW90 (rotCW90 (rotCW90 m))) ∧
    (rotCW90 m).h = m.w ∧ (rotCW90 m).w = m.h ∧
    (rot180 m).h = m.h ∧ (rot180 m).w = m.w ∧
    (rotCCW90 m).h = m.w ∧ (rotCCW90 m).w = m.h ∧
    rotCCW90 (rotCW90 m) = m := by
  refine ⟨rfl, rfl, ?_, rfl, rfl, rfl, ?_, rfl, rfl, rfl, rfl, rfl, rfl,
    rotCCW90_rotCW90 m⟩
  · show ([0, 90, 180, 270] : List Nat).Nodup
    decide
  · rw [rotCW90_three]
    rfl

/-- Reduces a `find_correct_rotation` call on explicit scores to its
components, for concrete evaluations. -/
theorem find_concrete (sim : Img ℚ → Img ℚ → ℚ) (reference_img test_img : Img ℚ)
    (x0 x90 x180 x270 : ℚ) (a : Nat) (bv sb : ℚ) (fl : Bool)
    (hs : similarity_scores_of sim reference_img test_img =
      [(0, x0), (90, x90), (180, x180), (270, x270)])
    (hbp : best_pair [(0, x0), (90, x90), (180, x180), (270, x270)] = (a, bv))
    (hsb : second_best_similarity [(0, x0), (90, x90), (180, x180), (270, x270)] = sb)
    (hfl : decide (bv - sb < SIMILARITY_THRESHOLD) = fl) :
    find_correct_rotation sim reference_img (some test_img) =
      (a, bv, [(0, x0), (90, x90), (180, x180), (270, x270)], fl) := by
  have h1 : (find_correct_rotation sim reference_img (some test_img)).1 = a := by
    rw [find_fst, hs, hbp]
  have h2 : (find_correct_rotation sim reference_img (some test_img)).2.1 = bv := by
    rw [find_snd, hs, hbp]
  have h3 : (find_correct_rotation sim reference_img (some test_img)).2.2.1 =
      [(0, x0), (90, x90), (180, x180), (270, x270)] := by
    rw [find_scores, hs]
  have h4 : (find_correct_rotation sim reference_img (some test_img)).2.2.2 = fl := by
    rw [find_flag, hs, hbp, hsb, hfl]
  exact Prod.ext h1 (Prod.ext h2 (Prod.ext h3 h4))

/-- Witness for C3 at a margin exactly equal to the threshold: scores
`{0: 103/200, 90: 1/2, 180: 1/4, 270: 0}` give margin `3/200 = 0.015` and the
image is not flagged. -/
theorem c3_boundary_witness :
    ((find_correct_rotation simTL refImg (some (img2x2 (103/200) 0 (1/2) (1/4)))).2.1 -
      second_best_similarity
        (similarity_scores_of simTL refImg (img2x2 (103/200) 0 (1/2) (1/4))) =
        SIMILARITY_THRESHOLD) ∧
    (find_correct_rotation simTL refImg (some (img2x2 (103/200) 0 (1/2) (1/4)))).2.2.2 = false := by
  have hm : (find_correct_rotation simTL refImg (some (img2x2 (103/200) 0 (1/2) (1/4)))).2.1 -
      second_best_similarity
        (similarity_scores_of simTL refImg (img2x2 (103/200) 0 (1/2) (1/4))) =
        SIMILARITY_THRESHOLD := by
    have hs : similarity_scores_of simTL refImg (img2x2 (103/200) 0 (1/2) (1/4)) =
        [(0, 103/200), (90, 1/2), (180, 1/4), (270, 0)] := rfl
    rw [find_snd, hs]
    norm_num [best_pair, second_best_similarity, sortDesc, List.insertionSort,
      List.orderedInsert, SIMILARITY_THRESHOLD]
  exact ⟨hm, (c3_manual_review_iff_margin_below simTL refImg
    (img2x2 (103/200) 0 (1/2) (1/4))).2 hm⟩

/-- The per-batch counters of `batch_correct_with_template`
(`image_rotation_corrector.py`, lines 180-184).  `failed` is initialised to 0
and — as in the source — never incremented anywhere. -/
structure Counts where
  corrected : Nat
  already_correct : Nat
  failed : Nat
  manual_check : Nat
deriving DecidableEq

/-- The output location of one processed file: the output folder root or its
`manual_check` subfolder, keeping the original file name (names are modelled
as numeric identifiers). -/
inductive Dest where
  | root (name : Nat)
  | manual_check (name : Nat)
deriving DecidableEq

/-- One completed write: destination and image content. -/
structure SaveAction where
  dest : Dest
  img : Img ℚ

/-- An uncaught exception aborting the batch loop: the `KeyError` raised by
`scores[deg]` in the per-angle report when the score map lacks an angle. -/
inductive BatchError where
  | score_key_missing
deriving DecidableEq

/-- One input file of the batch: its name and the image it decodes to
(`none` when loading raises). -/
structure BatchFile where
  name : Nat
  load : Option (Img ℚ)

/-- The counter updates of one loop iteration
(`image_rotation_corrector.py`, lines 209-222), applied to the result `r` of
`find_correct_rotation`: a nonzero best angle bumps `corrected`, a zero angle
bumps `already_correct`, and a set manual-check flag additionally bumps
`manual_check`.  `failed` is never touched. -/
def countsAfter (c : Counts) (r : Nat × ℚ × List (Nat × ℚ) × Bool) : Counts :=
  let c1 := if r.1 ≠ 0 then { c with corrected := c.corrected + 1 }
    else { c with already_correct := c.already_correct + 1 }
  if r.2.2.2 then { c1 with manual_check := c1.manual_check + 1 } else c1

/-- The body of the per-file loop of `batch_correct_with_template`
(`image_rotation_corrector.py`, lines 187-234): run `find_correct_rotation`,
print the per-angle report — which evaluates `scores[deg]` for each of the
four angles and raises `KeyError` when the map is empty —, rotate with
`img.rotate(360 - angle, expand=True)` for a nonzero angle (unchanged image
for angle 0), update the counters, and save to the `manual_check` subfolder
when flagged or to the output root otherwise. -/
def processFile (sim : Img ℚ → Img ℚ → ℚ) (reference_img : Img ℚ) (c : Counts)
    (f : BatchFile) : Except BatchError (Counts × SaveAction) :=
  if ([0, 90, 180, 270].all (fun deg =>
      ((find_correct_rotation sim reference_img f.load).2.2.1.lookup deg).isSome)) then
    match f.load with
    | none => Except.error BatchError.score_key_missing
    | some img =>
      Except.ok
        (countsAfter c (find_correct_rotation sim reference_img f.load),
         ⟨if (find_correct_rotation sim reference_img f.load).2.2.2 then
             Dest.manual_check f.name
           else Dest.root f.name,
          savedImage (find_correct_rotation sim reference_img f.load).1 img⟩)
  else Except.error BatchError.score_key_missing

/-- `batch_correct_with_template(input_folder, output_folder, reference_image)`
(`image_rotation_corrector.py`, lines 136-249), per-file loop: fold
`processFile` over the input files, threading the counters and collecting the
saved outputs; an uncaught exception aborts the whole run. -/
def batch_correct_with_template (sim : Img ℚ → Img ℚ → ℚ) (reference_img : Img ℚ)
    (files : List BatchFile) : Except BatchError (Counts × List SaveAction) :=
  files.foldlM (fun acc f => do
    let r ← processFile sim reference_img acc.1 f
    pure (r.1, acc.2 ++ [r.2])) (⟨0, 0, 0, 0⟩, [])

/-- On a loaded image the score map holds all four angles, so the per-angle
report succeeds. -/
theorem lookup_all_angles (sim : Img ℚ → Img ℚ → ℚ) (reference_img test_img : Img ℚ) :
    ([0, 90, 180, 270].all (fun deg =>
      (((find_correct_rotation sim reference_img (some test_img)).2.2.1).lookup deg).isSome)) = true := by
  rw [find_scores, scores_eq]
  rfl

/-- A successful `processFile` never changes the `failed` counter. -/
theorem processFile_failed (sim : Img ℚ → Img ℚ → ℚ) (reference_img : Img ℚ)
    (c : Counts) (f : BatchFile) (c2 : Counts) (s : SaveAction)
    (hp : processFile sim reference_img c f = Except.ok (c2, s)) :
    c2.failed = c.failed := by
  unfold processFile at hp
  cases hload : f.load with
  | none =>
    rw [hload] at hp
    have hfind : find_correct_rotation sim reference_img none = (0, 0, [], false) := rfl
    rw [hfind] at hp
    simp at hp
  | some img =>
    rw [hload] at hp
    simp only [lookup_all_angles, if_true] at hp
    rw [Except.ok.injEq, Prod.mk.injEq] at hp
    obtain ⟨hc, _⟩ := hp
    rw [← hc]
    unfold countsAfter
    split <;> split <;> rfl

/-- A successful batch fold leaves `failed` at its starting value. -/
theorem batch_failed_aux (sim : Img ℚ → Img ℚ → ℚ) (reference_img : Img ℚ) :
    ∀ (files : List BatchFile) (acc : Counts × List SaveAction)
      (res : Counts × List SaveAction),
      files.foldlM (fun acc f => do
        let r ← processFile sim reference_img acc.1 f
        pure (r.1, acc.2 ++ [r.2])) acc = Except.ok res →
      res.1.failed = acc.1.failed := by
  intro files
  induction files with
  | nil =>
    intro acc res h
    rw [show ((([] : List BatchFile).foldlM (fun acc f => do
        let r ← processFile sim reference_img acc.1 f
        pure (r.1, acc.2 ++ [r.2])) acc) : Except BatchError (Counts × List SaveAction)) =
      Except.ok acc from rfl, Except.ok.injEq] at h
    rw [← h]
  | cons f fs ih =>
    intro acc res h
    rw [List.foldlM_cons] at h
    match hq : processFile sim reference_img acc.1 f with
    | Except.error e =>
      rw [hq] at h
      exact absurd h (by simp [Bind.bind, Except.bind])
    | Except.ok val =>
      rw [hq] at h
      have h2 : fs.foldlM (fun acc f => do
          let r ← processFile sim reference_img acc.1 f
          pure (r.1, acc.2 ++ [r.2])) (val.1, acc.2 ++ [val.2]) = Except.ok res := h
      have h3 := ih (val.1, acc.2 ++ [val.2]) res h2
      rw [h3]
      exact processFile_failed sim reference_img acc.1 f val.1 val.2 (by rw [hq])

/-- A concrete confident already-correct file: scores `{0:1, 90:0, 180:0, 270:0}`. -/
theorem hfind_conf : find_correct_rotation simTL refImg (some (img2x2 1 0 0 0)) =
    (0, 1, [(0, 1), (90, 0), (180, 0), (270, 0)], false) :=
  find_concrete simTL refImg (img2x2 1 0 0 0) 1 0 0 0 0 1 0 false rfl
    (by norm_num [best_pair])
    (by norm_num [second_best_similarity, sortDesc, List.insertionSort, List.orderedInsert])
    (by norm_num [SIMILARITY_THRESHOLD])

theorem hproc_conf (c : Counts) :
    processFile simTL refImg c ⟨1, some (img2x2 1 0 0 0)⟩ =
      Except.ok ({ c with already_correct := c.already_correct + 1 },
        ⟨Dest.root 1, img2x2 1 0 0 0⟩) := by
  unfold processFile
  dsimp only
  rw [hfind_conf]
  rfl

/-- C4 (code bug): a file whose load fails does not bump the `failed` counter
and does not let the batch continue — the per-angle report raises `KeyError`
on the empty score map, aborting the whole run is what the code does instead.
A one-good-file batch completes with `failed = 0`; adding a corrupt file makes
the same batch abort with the uncaught error; and every batch that does
complete reports `failed = 0` regardless of its inputs. -/
theorem c4_corrupt_file_aborts_batch :
    (batch_correct_with_template simTL refImg [⟨1, some (img2x2 1 0 0 0)⟩] =
      Except.ok (⟨0, 1, 0, 0⟩, [⟨Dest.root 1, img2x2 1 0 0 0⟩])) ∧
    (batch_correct_with_template simTL refImg
        [⟨1, some (img2x2 1 0 0 0)⟩, ⟨2, none⟩] =
      Except.error BatchError.score_key_missing) ∧
    (∀ (sim : Img ℚ → Img ℚ → ℚ) (reference_img : Img ℚ)
        (files : List BatchFile) (res : Counts × List SaveAction),
      batch_correct_with_template sim reference_img files = Except.ok res →
      res.1.failed = 0) := by
  refine ⟨?_, ?_, ?_⟩
  · rw [show batch_correct_with_template simTL refImg [⟨1, some (img2x2 1 0 0 0)⟩] =
        (do
          let r ← processFile simTL refImg (⟨0, 0, 0, 0⟩ : Counts) ⟨1, some (img2x2 1 0 0 0)⟩
          pure (r.1, ([] : List SaveAction) ++ [r.2]) :
            Except BatchError (Counts × List SaveAction)) from rfl,
      hproc_conf]
    rfl
  · rw [show batch_correct_with_template simTL refImg
        [⟨1, some (img2x2 1 0 0 0)⟩, ⟨2, none⟩] =
        (do
          let r ← processFile simTL refImg (⟨0, 0, 0, 0⟩ : Counts) ⟨1, some (img2x2 1 0 0 0)⟩
          (do
            let r2 ← processFile simTL refImg r.1 ⟨2, none⟩
            pure (r2.1, (([] : List SaveAction) ++ [r.2]) ++ [r2.2])) :
            Except BatchError (Counts × List SaveAction)) from rfl,
      hproc_conf]
    rfl
  · intro sim reference_img files res h
    exact batch_failed_aux sim reference_img files (⟨0, 0, 0, 0⟩, []) res h

/-- Witness for C4's universally quantified part: a concrete completed batch,
whose reported `failed` count is 0. -/
theorem c4_witness :
    batch_correct_with_template simTL refImg [⟨1, some (img2x2 1 0 0 0)⟩] =
      Except.ok (⟨0, 1, 0, 0⟩, [⟨Dest.root 1, img2x2 1 0 0 0⟩]) ∧
    ((⟨0, 1, 0, 0⟩ : Counts), [(⟨Dest.root 1, img2x2 1 0 0 0⟩ : SaveAction)]).1.failed = 0 :=
  ⟨c4_corrupt_file_aborts_batch.1,
   c4_corrupt_file_aborts_batch.2.2 simTL refImg [⟨1, some (img2x2 1 0 0 0)⟩]
     (⟨0, 1, 0, 0⟩, [⟨Dest.root 1, img2x2 1 0 0 0⟩]) c4_corrupt_file_aborts_batch.1⟩

/-- C7: a successfully processed file is saved to the `manual_check` subfolder
exactly when the decision flags it, and to the output folder root otherwise,
under its original name; the written image is the saved rotation, which for a
0-degree decision is a copy of the loaded image itself. -/
theorem c7_routing (sim : Img ℚ → Img ℚ → ℚ) (reference_img : Img ℚ)
    (c : Counts) (f : BatchFile) (img : Img ℚ) (hload : f.load = some img)
    (c2 : Counts) (s : SaveAction)
    (hp : processFile sim reference_img c f = Except.ok (c2, s)) :
    s.dest = (if (find_correct_rotation sim reference_img f.load).2.2.2 then
        Dest.manual_check f.name else Dest.root f.name) ∧
    s.img = savedImage (find_correct_rotation sim reference_img f.load).1 img ∧
    ((find_correct_rotation sim reference_img f.load).1 = 0 → s.img = img) := by
  rw [hload]
  unfold processFile at hp
  rw [hload] at hp
  simp only [lookup_all_angles, if_true] at hp
  rw [Except.ok.injEq, Prod.mk.injEq] at hp
  obtain ⟨hc, hs⟩ := hp
  refine ⟨by rw [← hs], by rw [← hs], ?_⟩
  intro h0
  rw [← hs]
  show savedImage (find_correct_rotation sim reference_img (some img)).1 img = img
  rw [h0]
  simp [savedImage]

/-- A concrete fully ambiguous file: all four scores equal, flagged for manual
review. -/
theorem hfind_tie : find_correct_rotation simTL refImg (some (img2x2 1 1 1 1)) =
    (0, 1, [(0, 1), (90, 1), (180, 1), (270, 1)], true) :=
  find_concrete simTL refImg (img2x2 1 1 1 1) 1 1 1 1 0 1 1 true rfl
    (by norm_num [best_pair])
    (by norm_num [second_best_similarity, sortDesc, List.insertionSort, List.orderedInsert])
    (by norm_num [SIMILARITY_THRESHOLD])

theorem hproc_tie : processFile simTL refImg ⟨0, 0, 0, 0⟩ ⟨5, some (img2x2 1 1 1 1)⟩ =
    Except.ok (⟨0, 1, 0, 1⟩, ⟨Dest.manual_check 5, img2x2 1 1 1 1⟩) := by
  unfold processFile
  dsimp only
  rw [hfind_tie]
  rfl

/-- Witness for C7: an ambiguous file is routed to the `manual_check`
subfolder, and its 0-degree decision writes the unchanged image. -/
theorem c7_witness :
    (processFile simTL refImg ⟨0, 0, 0, 0⟩ ⟨5, some (img2x2 1 1 1 1)⟩ =
      Except.ok (⟨0, 1, 0, 1⟩, ⟨Dest.manual_check 5, img2x2 1 1 1 1⟩)) ∧
    ((SaveAction.mk (Dest.manual_check 5) (img2x2 1 1 1 1)).dest =
      (if (find_correct_rotation simTL refImg (some (img2x2 1 1 1 1))).2.2.2 then
        Dest.manual_check 5 else Dest.root 5) ∧
    (SaveAction.mk (Dest.manual_check 5) (img2x2 1 1 1 1)).img =
      savedImage (find_correct_rotation simTL refImg (some (img2x2 1 1 1 1))).1
        (img2x2 1 1 1 1) ∧
    ((find_correct_rotation simTL refImg (some (img2x2 1 1 1 1))).1 = 0 →
      (SaveAction.mk (Dest.manual_check 5) (img2x2 1 1 1 1)).img = img2x2 1 1 1 1)) :=
  ⟨hproc_tie,
   c7_routing simTL refImg ⟨0, 0, 0, 0⟩ ⟨5, some (img2x2 1 1 1 1)⟩ (img2x2 1 1 1 1) rfl
     ⟨0, 1, 0, 1⟩ ⟨Dest.manual_check 5, img2x2 1 1 1 1⟩ hproc_tie⟩

/-- C8, counterexample to "the file is routed to the main output folder": a
batch holding only an unloadable file does not write the file anywhere — the
run aborts with the uncaught `KeyError` from the per-angle report on the empty
score map. -/
theorem c8_counterexample :
    batch_correct_with_template simTL refImg [⟨9, none⟩] =
      Except.error BatchError.score_key_missing := rfl

/-- C8 as amended: when the load fails, `find_correct_rotation` catches the
exception and returns angle 0, best score 0, an empty score map and
`needs_manual_check = False` — indistinguishable in angle, score and flag from
a confident already-correct decision — but the per-file processing then aborts
with the uncaught `KeyError` of the per-angle report on the empty map, so the
file is never routed to any output folder. -/
theorem c8_load_failure_sentinel (sim : Img ℚ → Img ℚ → ℚ) (reference_img : Img ℚ) :
    find_correct_rotation sim reference_img none = (0, 0, [], false) ∧
    (∀ (c : Counts) (f : BatchFile), f.load = none →
      processFile sim reference_img c f = Except.error BatchError.score_key_missing) := by
  refine ⟨rfl, ?_⟩
  intro c f hload
  unfold processFile
  rw [hload]
  rfl

/-- Witness for C8's quantified part at a concrete corrupt file. -/
theorem c8_witness :
    ((⟨9, none⟩ : BatchFile).load = none) ∧
    processFile simTL refImg ⟨0, 0, 0, 0⟩ ⟨9, none⟩ =
      Except.error BatchError.score_key_missing :=
  ⟨rfl, (c8_load_failure_sentinel simTL refImg).2 ⟨0, 0, 0, 0⟩ ⟨9, none⟩ rfl⟩

/-- Witness for C1 at concrete scores `{0: 1/2, 90: 3/4, 180: 1/5, 270: 1/4}`. -/
theorem c1_witness :
    (∀ p ∈ similarity_scores_of simTL refImg (img2x2 (1/2) (1/4) (3/4) (1/5)), 0 ≤ p.2) ∧
    ((find_correct_rotation simTL refImg (some (img2x2 (1/2) (1/4) (3/4) (1/5)))).2.1
        ∈ (similarity_scores_of simTL refImg (img2x2 (1/2) (1/4) (3/4) (1/5))).map Prod.snd ∧
    (∀ v ∈ (similarity_scores_of simTL refImg (img2x2 (1/2) (1/4) (3/4) (1/5))).map Prod.snd,
        v ≤ (find_correct_rotation simTL refImg (some (img2x2 (1/2) (1/4) (3/4) (1/5)))).2.1) ∧
    (similarity_scores_of simTL refImg (img2x2 (1/2) (1/4) (3/4) (1/5))).find?
        (fun p => decide (p.2 =
          (find_correct_rotation simTL refImg (some (img2x2 (1/2) (1/4) (3/4) (1/5)))).2.1)) =
      some ((find_correct_rotation simTL refImg (some (img2x2 (1/2) (1/4) (3/4) (1/5)))).1,
            (find_correct_rotation simTL refImg (some (img2x2 (1/2) (1/4) (3/4) (1/5)))).2.1)) :=
  have hnn : ∀ p ∈ similarity_scores_of simTL refImg (img2x2 (1/2) (1/4) (3/4) (1/5)), 0 ≤ p.2 := by
    intro p hp
    rw [show similarity_scores_of simTL refImg (img2x2 (1/2) (1/4) (3/4) (1/5)) =
      [(0, 1/2), (90, 3/4), (180, 1/5), (270, 1/4)] from rfl] at hp
    simp only [List.mem_cons, List.not_mem_nil, or_false] at hp
    rcases hp with rfl | rfl | rfl | rfl <;> norm_num
  ⟨hnn, c1_decision_record_consistent simTL refImg (img2x2 (1/2) (1/4) (3/4) (1/5)) hnn⟩

/-- Witness for C2's amended statement at concrete scores
`{0: 4/5, 90: 3/5, 180: 2/5, 270: 1/5}`. -/
theorem c2_witness :
    (∀ p ∈ similarity_scores_of simTL refImg (img2x2 (4/5) (1/5) (3/5) (2/5)), 0 ≤ p.2) ∧
    (second_best_similarity (similarity_scores_of simTL refImg (img2x2 (4/5) (1/5) (3/5) (2/5)))
        ∈ ((similarity_scores_of simTL refImg (img2x2 (4/5) (1/5) (3/5) (2/5))).map Prod.snd).erase
            (find_correct_rotation simTL refImg (some (img2x2 (4/5) (1/5) (3/5) (2/5)))).2.1 ∧
    (∀ v ∈ ((similarity_scores_of simTL refImg (img2x2 (4/5) (1/5) (3/5) (2/5))).map Prod.snd).erase
            (find_correct_rotation simTL refImg (some (img2x2 (4/5) (1/5) (3/5) (2/5)))).2.1,
        v ≤ second_best_similarity
          (similarity_scores_of simTL refImg (img2x2 (4/5) (1/5) (3/5) (2/5)))) ∧
    (find_correct_rotation simTL refImg (some (img2x2 (4/5) (1/5) (3/5) (2/5)))).2.2.2 =
      decide ((find_correct_rotation simTL refImg (some (img2x2 (4/5) (1/5) (3/5) (2/5)))).2.1 -
        second_best_similarity (similarity_scores_of simTL refImg (img2x2 (4/5) (1/5) (3/5) (2/5))) <
          SIMILARITY_THRESHOLD)) :=
  have hnn : ∀ p ∈ similarity_scores_of simTL refImg (img2x2 (4/5) (1/5) (3/5) (2/5)), 0 ≤ p.2 := by
    intro p hp
    rw [show similarity_scores_of simTL refImg (img2x2 (4/5) (1/5) (3/5) (2/5)) =
      [(0, 4/5), (90, 3/5), (180, 2/5), (270, 1/5)] from rfl] at hp
    simp only [List.mem_cons, List.not_mem_nil, or_false] at hp
    rcases hp with rfl | rfl | rfl | rfl <;> norm_num
  ⟨hnn, c2_second_best_counts_multiplicity simTL refImg (img2x2 (4/5) (1/5) (3/5) (2/5)) hnn⟩

/-- The split direction of `extract_part_from_image` (`split_images.py`): the
source compares the argument against the horizontal marker and treats every
other value as vertical. -/
inductive Direction where
  | horizontal
  | vertical
deriving DecidableEq

/-- The crop rectangle `(left, upper, right, lower)` that
`extract_part_from_image` (`split_images.py`, lines 16-79) passes to
`image.crop` for an image of size `width` by `height`: validate
`part_index ∈ {1, 2, 3}` (raising `ValueError` otherwise, modelled as `none`),
set `i = part_index - 1`, and slice `[i * (width // 3), (i + 1) * (width // 3))`
for `i < 2` or `[2 * (width // 3), width)` for the last part, at full height;
the vertical direction slices the height the same way at full width. -/
def extract_part_from_image (width height part_index : Nat) (direction : Direction) :
    Option (Nat × Nat × Nat × Nat) :=
  if part_index = 1 ∨ part_index = 2 ∨ part_index = 3 then
    let i := part_index - 1
    match direction with
    | Direction.horizontal =>
      let part_width := width / 3
      let left := i * part_width
      let right := if i < 2 then (i + 1) * part_width else width
      some (left, 0, right, height)
    | Direction.vertical =>
      let part_height := height / 3
      let top := i * part_height
      let bottom := if i < 2 then (i + 1) * part_height else height
      some (0, top, width, bottom)
  else none

/-- C9: the three horizontal crop boxes are the full-height slices
`[0, w/3)`, `[w/3, 2*(w/3))` and `[2*(w/3), w)`, which partition the width
(each column index falls in exactly one slice, the last absorbing the
remainder); the vertical direction slices the height analogously. -/
theorem c9_thirds_partition (w h x y : Nat) (hx : x < w) (hy : y < h) :
    extract_part_from_image w h 1 Direction.horizontal = some (0, 0, w / 3, h) ∧
    extract_part_from_image w h 2 Direction.horizontal = some (w / 3, 0, 2 * (w / 3), h) ∧
    extract_part_from_image w h 3 Direction.horizontal = some (2 * (w / 3), 0, w, h) ∧
    ((x < w / 3 ∧ ¬ (w / 3 ≤ x ∧ x < 2 * (w / 3)) ∧ ¬ (2 * (w / 3) ≤ x)) ∨
     ((w / 3 ≤ x ∧ x < 2 * (w / 3)) ∧ ¬ (x < w / 3) ∧ ¬ (2 * (w / 3) ≤ x)) ∨
     ((2 * (w / 3) ≤ x ∧ x < w) ∧ ¬ (x < w / 3) ∧ ¬ (x < 2 * (w / 3)))) ∧
    extract_part_from_image w h 1 Direction.vertical = some (0, 0, w, h / 3) ∧
    extract_part_from_image w h 2 Direction.vertical = some (0, h / 3, w, 2 * (h / 3)) ∧
    extract_part_from_image w h 3 Direction.vertical = some (0, 2 * (h / 3), w, h) ∧
    ((y < h / 3 ∧ ¬ (h / 3 ≤ y ∧ y < 2 * (h / 3)) ∧ ¬ (2 * (h / 3) ≤ y)) ∨
     ((h / 3 ≤ y ∧ y < 2 * (h / 3)) ∧ ¬ (y < h / 3) ∧ ¬ (2 * (h / 3) ≤ y)) ∨
     ((2 * (h / 3) ≤ y ∧ y < h) ∧ ¬ (y < h / 3) ∧ ¬ (y < 2 * (h / 3)))) := by
  refine ⟨?_, ?_, ?_, by omega, ?_, ?_, ?_, by omega⟩ <;>
    simp [extract_part_from_image]

/-- Witness for C9 at a width not divisible by 3. -/
theorem c9_witness :
    ((10 : Nat) < 11 ∧ (0 : Nat) < 7) ∧
    (extract_part_from_image 11 7 1 Direction.horizontal = some (0, 0, 11 / 3, 7) ∧
    extract_part_from_image 11 7 2 Direction.horizontal = some (11 / 3, 0, 2 * (11 / 3), 7) ∧
    extract_part_from_image 11 7 3 Direction.horizontal = some (2 * (11 / 3), 0, 11, 7) ∧
    ((10 < 11 / 3 ∧ ¬ (11 / 3 ≤ 10 ∧ 10 < 2 * (11 / 3)) ∧ ¬ (2 * (11 / 3) ≤ 10)) ∨
     ((11 / 3 ≤ 10 ∧ 10 < 2 * (11 / 3)) ∧ ¬ (10 < 11 / 3) ∧ ¬ (2 * (11 / 3) ≤ 10)) ∨
     ((2 * (11 / 3) ≤ 10 ∧ 10 < 11) ∧ ¬ (10 < 11 / 3) ∧ ¬ (10 < 2 * (11 / 3)))) ∧
    extract_part_from_image 11 7 1 Direction.vertical = some (0, 0, 11, 7 / 3) ∧
    extract_part_from_image 11 7 2 Direction.vertical = some (0, 7 / 3, 11, 2 * (7 / 3)) ∧
    extract_part_from_image 11 7 3 Direction.vertical = some (0, 2 * (7 / 3), 11, 7) ∧
    ((0 < 7 / 3 ∧ ¬ (7 / 3 ≤ 0 ∧ 0 < 2 * (7 / 3)) ∧ ¬ (2 * (7 / 3) ≤ 0)) ∨
     ((7 / 3 ≤ 0 ∧ 0 < 2 * (7 / 3)) ∧ ¬ (0 < 7 / 3) ∧ ¬ (2 * (7 / 3) ≤ 0)) ∨
     ((2 * (7 / 3) ≤ 0 ∧ 0 < 7) ∧ ¬ (0 < 7 / 3) ∧ ¬ (0 < 2 * (7 / 3))))) :=
  ⟨⟨by omega, by omega⟩, c9_thirds_partition 11 7 10 0 (by omega) (by omega)⟩

/-- The width `img_array.shape[1]` of a rectangular grayscale array stored as
a list of rows. -/
def gray_width (image : List (List ℚ)) : Nat :=
  (image.headD []).length

/-- The row indices of `np.where(gray < threshold)` — the rows holding at
least one non-white pixel (`crop_white_edges.py`, line 57). -/
def nonwhite_rows (image : List (List ℚ)) (threshold : ℚ) : List Nat :=
  (List.range image.length).filter
    (fun r => (image.getD r []).any (fun v => decide (v < threshold)))

/-- The column indices of `np.where(gray < threshold)` — the columns holding
at least one non-white pixel. -/
def nonwhite_cols (image : List (List ℚ)) (threshold : ℚ) : List Nat :=
  (List.range (gray_width image)).filter
    (fun cc => image.any (fun row => decide (row.getD cc threshold < threshold)))

/-- `crop_white_edges(image, threshold=250, padding=10)`
(`crop_white_edges.py`, lines 31-83): when no pixel is darker than the
threshold, return the image unchanged; otherwise crop to the bounding box of
the non-white pixels, widened by `padding` and clamped to the image
(`top = max(0, min - padding)` is truncated natural subtraction,
`bottom = min(height, max + padding + 1)`, and likewise for columns). -/
def crop_white_edges (image : List (List ℚ)) (threshold : ℚ) (padding : Nat) :
    List (List ℚ) :=
  match nonwhite_rows image threshold, nonwhite_cols image threshold with
  | [], _ => image
  | _, [] => image
  | r0 :: rtl, c0 :: ctl =>
    let top := rtl.foldl Nat.min r0 - padding
    let bottom := Nat.min image.length (rtl.foldl Nat.max r0 + padding + 1)
    let left := ctl.foldl Nat.min c0 - padding
    let right := Nat.min (gray_width image) (ctl.foldl Nat.max c0 + padding + 1)
    ((image.drop top).take (bottom - top)).map
      (fun row => (row.drop left).take (right - left))

/-- C10: an image in which every pixel is at least as bright as the white
threshold is returned unchanged by `crop_white_edges`. -/
theorem c10_all_white_identity (image : List (List ℚ)) (threshold : ℚ) (padding : Nat)
    (hwhite : ∀ row ∈ image, ∀ v ∈ row, threshold ≤ v) :
    crop_white_edges image threshold padding = image := by
  have hrows : nonwhite_rows image threshold = [] := by
    unfold nonwhite_rows
    rw [List.filter_eq_nil_iff]
    intro r hr
    simp only [List.mem_range] at hr
    simp only [List.any_eq_true, decide_eq_true_eq, not_exists, not_and, not_lt]
    have hrow : image.getD r [] ∈ image := by
      rw [List.getD_eq_getElem?_getD, List.getElem?_eq_getElem hr]
      simp only [Option.getD_some]
      exact List.getElem_mem hr
    intro v hv
    exact hwhite _ hrow v hv
  have hcols : nonwhite_cols image threshold = [] := by
    unfold nonwhite_cols
    rw [List.filter_eq_nil_iff]
    intro cc hc
    simp only [List.any_eq_true, decide_eq_true_eq, not_exists, not_and, not_lt]
    intro row hrow
    by_cases hlen : cc < row.length
    · have hmem : row.getD cc threshold ∈ row := by
        rw [List.getD_eq_getElem?_getD, List.getElem?_eq_getElem hlen]
        simp only [Option.getD_some]
        exact List.getElem_mem hlen
      exact hwhite row hrow _ hmem
    · rw [List.getD_eq_default]
      omega
  unfold crop_white_edges
  rw [hrows, hcols]

/-- Witness for C10: a 2-by-2 image whose pixels are all at least the default
threshold 250 is returned unchanged. -/
theorem c10_witness :
    (∀ row ∈ [[(250 : ℚ), 255], [251, 250]], ∀ v ∈ row, (250 : ℚ) ≤ v) ∧
    crop_white_edges [[(250 : ℚ), 255], [251, 250]] 250 10 =
      [[(250 : ℚ), 255], [251, 250]] :=
  have hw : ∀ row ∈ [[(250 : ℚ), 255], [251, 250]], ∀ v ∈ row, (250 : ℚ) ≤ v := by
    intro row hrow v hv
    simp only [List.mem_cons, List.not_mem_nil, or_false] at hrow
    rcases hrow with rfl | rfl <;>
      (simp only [List.mem_cons, List.not_mem_nil, or_false] at hv ;
       rcases hv with rfl | rfl <;> norm_num)
  ⟨hw, c10_all_white_identity [[(250 : ℚ), 255], [251, 250]] 250 10 hw⟩
